import Mathlib

/-!
Shallow embedding of the task-management core of this repository
(`app/services/task_service.py`, `app/api/v1/tasks.py`, `app/models/task.py`,
`app/schemas/task.py`).

Modelling conventions:
* Timestamps (`DateTime`) are integers (seconds); `timedelta(days=d)` is `d * 86400`.
* The relational store is a record of row lists (`DB`); primary keys are drawn
  from a single `nextId` counter.
* The redis cache is embedded in `DB` restricted to the two key families the
  code uses: the fixed `analytics:dashboard` key and the per-task `task:{id}`
  keys.  An entry carries its absolute expiry time; `get` at time `now` sees it
  only while `now < expiry` (redis TTL semantics of `setex`).
* Pydantic partial inputs distinguish "field absent" from "field explicitly
  null" (`dict(exclude_unset=True)`): an outer `Option` is presence, an inner
  `Option` is nullability.  Scalar fields `title`/`status`/`priority` are only
  modelled with non-null values (the task columns are populated on every
  create and no claim concerns setting them to SQL NULL).
* `Task.updated_at` has `onupdate=datetime.utcnow`: it is refreshed exactly
  when the flush emits an UPDATE for the task row, i.e. when at least one
  scalar column was actually changed.
-/

namespace TaskMgmt

/-- Task status enumeration from `app/models/task.py`. -/
inductive TaskStatus where
  | todo
  | in_progress
  | in_review
  | done
  | blocked
deriving DecidableEq

/-- Task priority enumeration from `app/models/task.py`. -/
inductive TaskPriority where
  | low
  | medium
  | high
  | urgent
deriving DecidableEq

/-- Row of the `tasks` table. -/
structure Task where
  id : Nat
  title : String
  description : Option String
  status : TaskStatus
  priority : TaskPriority
  due_date : Option Int
  created_at : Int
  updated_at : Int
  creator_id : Nat
  parent_task_id : Option Nat
deriving DecidableEq

/-- Row of the `task_assignments` table. -/
structure TaskAssignment where
  id : Nat
  task_id : Nat
  user_id : Nat
  assigned_at : Int
deriving DecidableEq

/-- Row of the `task_dependencies` table. -/
structure TaskDependency where
  id : Nat
  task_id : Nat
  depends_on_task_id : Nat
  created_at : Int
deriving DecidableEq

/-- Row of the `tags` table. -/
structure Tag where
  id : Nat
  name : String
deriving DecidableEq

/-- Row of the `task_history` table. -/
structure TaskHistory where
  id : Nat
  task_id : Nat
  user_id : Nat
  field_changed : String
  old_value : String
  new_value : String
  changed_at : Int
deriving DecidableEq

/-- Row of the `users` table (the fields the task core reads). -/
structure User where
  id : Nat
  email : String
  username : String
deriving DecidableEq

/-- One row of the analytics per-user distribution. -/
structure UserDistRow where
  username : String
  email : String
  total_tasks : Nat
  overdue_tasks : Nat
deriving DecidableEq

/-- The analytics dashboard snapshot produced by `get_analytics`. -/
structure Analytics where
  total_tasks : Nat
  tasks_by_status : List (TaskStatus × Nat)
  tasks_by_priority : List (TaskPriority × Nat)
  overdue_tasks : Nat
  user_task_distribution : List UserDistRow
deriving DecidableEq

/-- The observable state: relational tables plus the redis cache keys used by
the service (`analytics:dashboard` and `task:{id}`, each with expiry time). -/
structure DB where
  tasks : List Task
  assignments : List TaskAssignment
  dependencies : List TaskDependency
  tags : List Tag
  task_tags : List (Nat × Nat)
  history : List TaskHistory
  users : List User
  nextId : Nat
  analyticsCache : Option (Analytics × Int)
  taskCache : List (Nat × Task × Int)
deriving DecidableEq

/-- Input schema `TaskCreate` from `app/schemas/task.py`. -/
structure TaskCreate where
  title : String
  description : Option String
  status : TaskStatus
  priority : TaskPriority
  due_date : Option Int
  parent_task_id : Option Nat
  assignee_ids : List Nat
  tag_names : List String
  dependency_ids : List Nat
deriving DecidableEq

/-- Input schema `TaskUpdate` from `app/schemas/task.py`.  Outer `Option` is
pydantic field presence (`exclude_unset`), inner `Option` is an explicit
null value. -/
structure TaskUpdate where
  title : Option String
  description : Option (Option String)
  status : Option TaskStatus
  priority : Option TaskPriority
  due_date : Option (Option Int)
  assignee_ids : Option (Option (List Nat))
  tag_names : Option (Option (List String))
deriving DecidableEq

/-- Input schema `TaskBulkUpdate` from `app/schemas/task.py`. -/
structure TaskBulkUpdate where
  task_ids : List Nat
  status : Option TaskStatus
  priority : Option TaskPriority
  assignee_ids : Option (List Nat)
deriving DecidableEq

/-- Input schema `TaskFilterRequest` from `app/schemas/task.py`. -/
structure TaskFilterRequest where
  status : Option (List TaskStatus)
  priority : Option (List TaskPriority)
  assignee_ids : Option (List Nat)
  tags : Option (List String)
  due_date_from : Option Int
  due_date_to : Option Int
  created_after : Option Int
  logic : String
deriving DecidableEq

/-- Python `str()` of an optional string column value. -/
def pyStr : Option String → String
  | none => "None"
  | some s => s

/-- Python `str()` of an optional timestamp column value. -/
def pyStrInt : Option Int → String
  | none => "None"
  | some i => toString i

/-- Python `str()` of a `TaskStatus` member. -/
def strStatus : TaskStatus → String
  | .todo => "TaskStatus.TODO"
  | .in_progress => "TaskStatus.IN_PROGRESS"
  | .in_review => "TaskStatus.IN_REVIEW"
  | .done => "TaskStatus.DONE"
  | .blocked => "TaskStatus.BLOCKED"

/-- Python `str()` of a `TaskPriority` member. -/
def strPriority : TaskPriority → String
  | .low => "TaskPriority.LOW"
  | .medium => "TaskPriority.MEDIUM"
  | .high => "TaskPriority.HIGH"
  | .urgent => "TaskPriority.URGENT"

/-- A pending history record: `(field_changed, old_value, new_value)`. -/
abbrev Change := String × String × String

/-- Insert one `TaskAssignment` row per user id, drawing fresh primary keys
from `nid`; returns the new rows and the advanced counter. -/
def insertAssignments (nid : Nat) (tid : Nat) (now : Int) : List Nat → List TaskAssignment × Nat
  | [] => ([], nid)
  | u :: us =>
    let r := insertAssignments (nid + 1) tid now us
    (⟨nid, tid, u, now⟩ :: r.1, r.2)

/-- Insert one `TaskDependency` row per target id. -/
def insertDeps (nid : Nat) (tid : Nat) (now : Int) : List Nat → List TaskDependency × Nat
  | [] => ([], nid)
  | d :: ds =>
    let r := insertDeps (nid + 1) tid now ds
    (⟨nid, tid, d, now⟩ :: r.1, r.2)

/-- Insert one `TaskHistory` row per recorded change. -/
def insertHistory (nid : Nat) (tid uid : Nat) (now : Int) : List Change → List TaskHistory × Nat
  | [] => ([], nid)
  | c :: cs =>
    let r := insertHistory (nid + 1) tid uid now cs
    (⟨nid, tid, uid, c.1, c.2.1, c.2.2, now⟩ :: r.1, r.2)

/-- Tag get-or-create for a single name (`task_service.py` lines 36-41 and
101-106): look the name up in the current tag table (the session sees rows
pending in the same transaction) and create a fresh row only on a miss.
Returns the tag table, the advanced id counter and the resolved tag id. -/
def getOrCreateTag (tags : List Tag) (nid : Nat) (name : String) : List Tag × Nat × Nat :=
  match tags.find? (fun tg => tg.name = name) with
  | some tg => (tags, nid, tg.id)
  | none => (tags ++ [⟨nid, name⟩], nid + 1, nid)

/-- Tag get-or-create over a whole `tag_names` list, left to right. -/
def getOrCreateTags : List Tag → Nat → List String → List Tag × Nat × List Nat
  | tags, nid, [] => (tags, nid, [])
  | tags, nid, n :: ns =>
    let r1 := getOrCreateTag tags nid n
    let r2 := getOrCreateTags r1.1 r1.2.1 ns
    (r2.1, r2.2.1, r1.2.2 :: r2.2.2)

/-- The `create_task` service method: inserts the task row, its assignment
rows, tag associations (get-or-create) and dependency edges, commits, and
invalidates the analytics cache.  Returns the new state and the new task id. -/
def create_task (db : DB) (tc : TaskCreate) (creator_id : Nat) (now : Int) : DB × Nat :=
  let tid := db.nextId
  let t : Task :=
    { id := tid, title := tc.title, description := tc.description,
      status := tc.status, priority := tc.priority, due_date := tc.due_date,
      created_at := now, updated_at := now, creator_id := creator_id,
      parent_task_id := tc.parent_task_id }
  let ra := insertAssignments (tid + 1) tid now tc.assignee_ids
  let rt := getOrCreateTags db.tags ra.2 tc.tag_names
  let rd := insertDeps rt.2.1 tid now tc.dependency_ids
  ({ db with
      tasks := db.tasks ++ [t],
      assignments := db.assignments ++ ra.1,
      tags := rt.1,
      task_tags := db.task_tags ++ (rt.2.2.map (fun g => (tid, g))),
      dependencies := db.dependencies ++ rd.1,
      nextId := rd.2,
      analyticsCache := none }, tid)

/-- Outcome of the `update_task` service method as observed by the API layer:
404 when the task id is unknown; an `AttributeError` escaping the field loop
(the transaction is rolled back, nothing persists); or a committed update. -/
inductive UpdateOutcome where
  | notFound
  | attrError
  | ok
deriving DecidableEq

/-- One loop iteration of `update_task` for the `title` field: apply and
record a change only when the explicitly present value differs. -/
def updTitle (upd : TaskUpdate) (s : Task × List Change) : Task × List Change :=
  match upd.title with
  | none => s
  | some v =>
    if s.1.title ≠ v then ({ s.1 with title := v }, s.2 ++ [("title", s.1.title, v)]) else s

/-- Loop iteration for the `description` field. -/
def updDescription (upd : TaskUpdate) (s : Task × List Change) : Task × List Change :=
  match upd.description with
  | none => s
  | some v =>
    if s.1.description ≠ v then
      ({ s.1 with description := v }, s.2 ++ [("description", pyStr s.1.description, pyStr v)])
    else s

/-- Loop iteration for the `status` field. -/
def updStatus (upd : TaskUpdate) (s : Task × List Change) : Task × List Change :=
  match upd.status with
  | none => s
  | some v =>
    if s.1.status ≠ v then
      ({ s.1 with status := v }, s.2 ++ [("status", strStatus s.1.status, strStatus v)])
    else s

/-- Loop iteration for the `priority` field. -/
def updPriority (upd : TaskUpdate) (s : Task × List Change) : Task × List Change :=
  match upd.priority with
  | none => s
  | some v =>
    if s.1.priority ≠ v then
      ({ s.1 with priority := v }, s.2 ++ [("priority", strPriority s.1.priority, strPriority v)])
    else s

/-- Loop iteration for the `due_date` field. -/
def updDueDate (upd : TaskUpdate) (s : Task × List Change) : Task × List Change :=
  match upd.due_date with
  | none => s
  | some v =>
    if s.1.due_date ≠ v then
      ({ s.1 with due_date := v }, s.2 ++ [("due_date", pyStrInt s.1.due_date, pyStrInt v)])
    else s

/-- The scalar-field pass of the `update_task` loop, in pydantic declaration
order (title, description, status, priority, due_date): an explicitly present
field is applied, and one change record appended, only when its value differs
from the current one. -/
def applyScalars (t : Task) (upd : TaskUpdate) : Task × List Change :=
  updDueDate upd (updPriority upd (updStatus upd (updDescription upd (updTitle upd (t, [])))))

/-- The `update_task` service method.  Both collection fields are guarded by
`value is not None`; an explicitly null `assignee_ids` or `tag_names` falls
through to the scalar branch, where `getattr(task, field)` raises
`AttributeError` (the `Task` model has no such attribute) and the transaction
never commits.  `updated_at` is refreshed by its `onupdate` hook exactly when
some scalar column actually changed.  On success the analytics cache and the
task's own cache entry are invalidated. -/
def update_task (db : DB) (task_id : Nat) (upd : TaskUpdate) (user_id : Nat) (now : Int) :
    UpdateOutcome × DB :=
  match db.tasks.find? (fun t => t.id = task_id) with
  | none => (.notFound, db)
  | some t =>
    if upd.assignee_ids = some none then (.attrError, db)
    else if upd.tag_names = some none then (.attrError, db)
    else
      let sc := applyScalars t upd
      let t' := if sc.2 = [] then sc.1 else { sc.1 with updated_at := now }
      let ra : List TaskAssignment × Nat :=
        match upd.assignee_ids with
        | some (some ids) =>
          let r := insertAssignments db.nextId task_id now ids
          (db.assignments.filter (fun a => a.task_id ≠ task_id) ++ r.1, r.2)
        | _ => (db.assignments, db.nextId)
      let rt : (List Tag × List (Nat × Nat)) × Nat :=
        match upd.tag_names with
        | some (some names) =>
          let g := getOrCreateTags db.tags ra.2 names
          ((g.1, db.task_tags.filter (fun p => p.1 ≠ task_id) ++ g.2.2.map (fun gid => (task_id, gid))),
           g.2.1)
        | _ => ((db.tags, db.task_tags), ra.2)
      let rh := insertHistory rt.2 task_id user_id now sc.2
      (.ok, { db with
        tasks := db.tasks.map (fun x => if x.id = task_id then t' else x),
        assignments := ra.1,
        tags := rt.1.1,
        task_tags := rt.1.2,
        history := db.history ++ rh.1,
        nextId := rh.2,
        analyticsCache := none,
        taskCache := db.taskCache.filter (fun e => e.1 ≠ task_id) })

/-- Accumulator for the per-task loop of `bulk_update_tasks`. -/
structure BulkAcc where
  assignments : List TaskAssignment
  history : List TaskHistory
  nid : Nat
  count : Nat
deriving DecidableEq

/-- The change records `bulk_update_tasks` produces for one matched task:
status and priority only when the new value differs; when an assignee list is
supplied, always one synthetic `assignees` record with empty old value and the
comma-joined id list as new value. -/
def bulkChanges (bu : TaskBulkUpdate) (t : Task) : List Change :=
  (match bu.status with
   | some s => if t.status ≠ s then [("status", strStatus t.status, strStatus s)] else []
   | none => []) ++
  (match bu.priority with
   | some p => if t.priority ≠ p then [("priority", strPriority t.priority, strPriority p)] else []
   | none => []) ++
  (match bu.assignee_ids with
   | some ids => [("assignees", "", String.intercalate "," (ids.map toString))]
   | none => [])

/-- Whether the bulk update dirties a scalar column of the task row (which is
what triggers the `updated_at` refresh hook). -/
def bulkScalarChanged (bu : TaskBulkUpdate) (t : Task) : Bool :=
  (match bu.status with | some s => t.status ≠ s | none => false) ||
  (match bu.priority with | some p => t.priority ≠ p | none => false)

/-- The new column values of one matched task after `bulk_update_tasks`. -/
def applyBulkTask (bu : TaskBulkUpdate) (now : Int) (t : Task) : Task :=
  let t1 := match bu.status with
    | some s => { t with status := s }
    | none => t
  let t2 := match bu.priority with
    | some p => { t1 with priority := p }
    | none => t1
  if bulkScalarChanged bu t then { t2 with updated_at := now } else t2

/-- One iteration of the `bulk_update_tasks` loop over a matched task:
replace its assignments when a list was supplied, append its history records,
and count it when it received at least one change record. -/
def bulkStep (bu : TaskBulkUpdate) (uid : Nat) (now : Int) (acc : BulkAcc) (t : Task) : BulkAcc :=
  let chs := bulkChanges bu t
  let ra : List TaskAssignment × Nat :=
    match bu.assignee_ids with
    | some ids =>
      let r := insertAssignments acc.nid t.id now ids
      (acc.assignments.filter (fun a => a.task_id ≠ t.id) ++ r.1, r.2)
    | none => (acc.assignments, acc.nid)
  let rh := insertHistory ra.2 t.id uid now chs
  { assignments := ra.1,
    history := acc.history ++ rh.1,
    nid := rh.2,
    count := acc.count + (if chs = [] then 0 else 1) }

/-- The `bulk_update_tasks` service method: loads the tasks whose id is in the
request (ids with no task are silently ignored), applies status/priority when
changed and full assignment replacement when a list is supplied, records
history per change, commits once and invalidates the analytics cache.
Returns the new state and the count of tasks that received a change record. -/
def bulk_update_tasks (db : DB) (bu : TaskBulkUpdate) (user_id : Nat) (now : Int) : DB × Nat :=
  let matched := db.tasks.filter (fun t => t.id ∈ bu.task_ids)
  let fin := matched.foldl (bulkStep bu user_id now) ⟨db.assignments, [], db.nextId, 0⟩
  ({ db with
      tasks := db.tasks.map (fun t => if t.id ∈ bu.task_ids then applyBulkTask bu now t else t),
      assignments := fin.assignments,
      history := db.history ++ fin.history,
      nextId := fin.nid,
      analyticsCache := none }, fin.count)

/-- One column-level criterion of `filter_tasks`'s `conditions` list. -/
inductive FilterCrit where
  | statusIn (l : List TaskStatus)
  | priorityIn (l : List TaskPriority)
  | dueFrom (d : Int)
  | dueTo (d : Int)
  | createdAfter (d : Int)
deriving DecidableEq

/-- The `conditions` list `filter_tasks` assembles: a criterion is added only
when the request field is truthy in Python (non-null, and non-empty for the
list-valued fields). -/
def conditions (fr : TaskFilterRequest) : List FilterCrit :=
  (match fr.status with | some (s :: ss) => [.statusIn (s :: ss)] | _ => []) ++
  (match fr.priority with | some (p :: ps) => [.priorityIn (p :: ps)] | _ => []) ++
  (match fr.due_date_from with | some d => [.dueFrom d] | none => []) ++
  (match fr.due_date_to with | some d => [.dueTo d] | none => []) ++
  (match fr.created_after with | some d => [.createdAfter d] | none => [])

/-- SQL evaluation of one column criterion on a task row (a comparison against
a NULL `due_date` is not TRUE, so the row fails the criterion). -/
def critHolds : FilterCrit → Task → Bool
  | .statusIn l, t => t.status ∈ l
  | .priorityIn l, t => t.priority ∈ l
  | .dueFrom d, t => match t.due_date with | some x => d ≤ x | none => false
  | .dueTo d, t => match t.due_date with | some x => x ≤ d | none => false
  | .createdAfter d, t => d ≤ t.created_at

/-- The inner join against `task_assignments`, applied whenever the request's
assignee id list is truthy: the task must have a matching assignment row. -/
def assigneeJoinOk (db : DB) (fr : TaskFilterRequest) (t : Task) : Bool :=
  match fr.assignee_ids with
  | some (i :: is) => db.assignments.any (fun a => a.task_id = t.id && a.user_id ∈ i :: is)
  | _ => true

/-- The inner join against `tags` via the association table, applied whenever
the request's tag name list is truthy. -/
def tagJoinOk (db : DB) (fr : TaskFilterRequest) (t : Task) : Bool :=
  match fr.tags with
  | some (n :: ns) =>
    db.task_tags.any (fun p => p.1 = t.id && db.tags.any (fun g => g.id = p.2 && g.name ∈ n :: ns))
  | _ => true

/-- The full WHERE predicate of `filter_tasks`: both joins are mandatory, and
the column conditions (when any) are combined with `and_` when `logic` is the
string AND and with `or_` otherwise. -/
def matchesFilter (db : DB) (fr : TaskFilterRequest) (t : Task) : Bool :=
  assigneeJoinOk db fr t && tagJoinOk db fr t &&
    (match conditions fr with
     | [] => true
     | cs => if fr.logic = "AND" then cs.all (fun c => critHolds c t) else cs.any (fun c => critHolds c t))

/-- The `filter_tasks` service method.  The trailing `.distinct()` collapses
the row multiplication introduced by the joins, so the result is the task rows
satisfying the predicate, each once per underlying row. -/
def filter_tasks (db : DB) (fr : TaskFilterRequest) : List Task :=
  db.tasks.filter (fun t => matchesFilter db fr t)

/-- Descending-timestamp order on history rows (ORDER BY changed_at DESC). -/
def hdesc (a b : TaskHistory) : Prop := b.changed_at ≤ a.changed_at

instance : DecidableRel hdesc := fun a b => inferInstanceAs (Decidable (b.changed_at ≤ a.changed_at))

instance : IsTotal TaskHistory hdesc := ⟨fun a b => le_total b.changed_at a.changed_at⟩

instance : IsTrans TaskHistory hdesc := ⟨fun _ _ _ h1 h2 => le_trans h2 h1⟩

/-- The `get_user_timeline` service method: history rows of tasks currently
assigned to the user (via the assignment subquery), inner-joined to `tasks`
and `users`, with `changed_at` within the trailing window, ordered by
`changed_at` descending. -/
def get_user_timeline (db : DB) (user_id : Nat) (days : Nat) (now : Int) : List TaskHistory :=
  let from_date := now - (days : Int) * 86400
  let selected := db.history.filter (fun h =>
    db.assignments.any (fun a => a.user_id = user_id && a.task_id = h.task_id) &&
    db.tasks.any (fun t => t.id = h.task_id) &&
    db.users.any (fun u => u.id = h.user_id) &&
    from_date ≤ h.changed_at)
  List.insertionSort hdesc selected

/-- Redis read of a `task:{id}` key at a given time: visible while unexpired. -/
def cacheLookup (cache : List (Nat × Task × Int)) (tid : Nat) (now : Int) : Option Task :=
  match cache.find? (fun e => e.1 = tid && now < e.2.2) with
  | some e => some e.2.1
  | none => none

/-- The `get_task` service method: read-through cache keyed `task:{id}` — a
cache hit returns the cached snapshot without touching the store; a miss
queries the store and, when the task exists, caches it for 300 seconds. -/
def get_task (db : DB) (task_id : Nat) (now : Int) : Option Task × DB :=
  match cacheLookup db.taskCache task_id now with
  | some t => (some t, db)
  | none =>
    match db.tasks.find? (fun t => t.id = task_id) with
    | none => (none, db)
    | some t =>
      (some t, { db with
        taskCache := db.taskCache.filter (fun e => e.1 ≠ task_id) ++ [(task_id, t, now + 300)] })

/-- Outcome of the delete route: 404, a failed flush (the transaction rolls
back and nothing persists), or a committed delete. -/
inductive DeleteOutcome where
  | notFound
  | integrityError
  | deleted
deriving DecidableEq

/-- The `delete_task` route: 404 when the id is unknown.  Otherwise
`db.delete(task)` cascades over the relationships that declare
`cascade="all, delete-orphan"` — assignments, OUTGOING dependency edges and
history — and over the tag-association rows of the secondary table.  The
`blocked_by` relationship (incoming edges) declares no delete cascade and no
`passive_deletes`, so at flush the ORM tries to null out
`depends_on_task_id` on every incoming edge that is not itself being
cascade-deleted; that column is `nullable=False`, so when another task's
edge points at the deleted task the UPDATE violates NOT NULL, the flush
fails with an IntegrityError and the transaction rolls back with nothing
deleted.  A purely self-referential edge is already cascade-deleted via the
outgoing collection and triggers no nullify.  On success the analytics cache
is invalidated; the per-task `task:{id}` cache entry is NOT deleted. -/
def delete_task (db : DB) (task_id : Nat) : DeleteOutcome × DB :=
  if db.tasks.any (fun t => t.id = task_id) then
    if db.dependencies.any
        (fun d => d.depends_on_task_id = task_id && d.task_id ≠ task_id) then
      (.integrityError, db)
    else
      (.deleted, { db with
        tasks := db.tasks.filter (fun t => t.id ≠ task_id),
        assignments := db.assignments.filter (fun a => a.task_id ≠ task_id),
        dependencies := db.dependencies.filter (fun d => d.task_id ≠ task_id),
        history := db.history.filter (fun h => h.task_id ≠ task_id),
        task_tags := db.task_tags.filter (fun p => p.1 ≠ task_id),
        analyticsCache := none })
  else (.notFound, db)

/-- Outcome of the add-dependency route. -/
inductive DepOutcome where
  | notFound
  | conflict
  | created
deriving DecidableEq

/-- Number of dependency edges with the given ordered endpoint pair. -/
def edgeCount (db : DB) (tid did : Nat) : Nat :=
  (db.dependencies.filter (fun d => d.task_id = tid && d.depends_on_task_id = did)).length

/-- The `add_task_dependency` route: 404 unless both endpoint tasks exist;
conflict when the exact ordered edge already exists (nothing written);
otherwise insert the edge.  The route performs no cache invalidation. -/
def add_task_dependency (db : DB) (task_id depends_on_task_id : Nat) (now : Int) : DepOutcome × DB :=
  if ¬ (db.tasks.any (fun t => t.id = task_id)) ∨
     ¬ (db.tasks.any (fun t => t.id = depends_on_task_id)) then
    (.notFound, db)
  else if db.dependencies.any
      (fun d => d.task_id = task_id && d.depends_on_task_id = depends_on_task_id) then
    (.conflict, db)
  else
    (.created, { db with
      dependencies := db.dependencies ++ [⟨db.nextId, task_id, depends_on_task_id, now⟩],
      nextId := db.nextId + 1 })

/-- An operation of the create/update fragment of the service, for stating
invariants over arbitrary operation sequences. -/
inductive TaskOp where
  | create (tc : TaskCreate) (creator_id : Nat) (now : Int)
  | update (task_id : Nat) (upd : TaskUpdate) (user_id : Nat) (now : Int)

/-- Apply one create/update operation to the state. -/
def applyOp (db : DB) : TaskOp → DB
  | .create tc c now => (create_task db tc c now).1
  | .update tid upd uid now => (update_task db tid upd uid now).2

/-- Tag-table invariant: no two tag rows share a name. -/
def tagNamesNodup (db : DB) : Prop := (db.tags.map (fun g => g.name)).Nodup

/-- A concrete task used as a witness fixture. -/
def exTask : Task :=
  { id := 1, title := "a", description := none, status := .todo, priority := .medium,
    due_date := some 50, created_at := 10, updated_at := 10, creator_id := 7,
    parent_task_id := none }

/-- A concrete store used as a witness fixture: one task, one assignment of
user 5 to task 1, one tag attached to task 1, one user. -/
def exDB : DB :=
  { tasks := [exTask], assignments := [⟨2, 1, 5, 0⟩], dependencies := [],
    tags := [⟨3, "x"⟩], task_tags := [(1, 3)], history := [], users := [⟨5, "e", "u"⟩],
    nextId := 100, analyticsCache := none, taskCache := [] }

/-- A concrete partial update whose explicitly present scalar fields all equal
the current values of `exTask`. -/
def exNoop : TaskUpdate :=
  { title := none, description := none, status := some .todo, priority := some .medium,
    due_date := some (some 50), assignee_ids := none, tag_names := none }

/-- Scalar attribute names the `update_task` loop can record in history. -/
def scalarName (s : String) : Prop :=
  s = "title" ∨ s = "description" ∨ s = "status" ∨ s = "priority" ∨ s = "due_date"

/-- Referential integrity of history rows, guaranteed by the store's foreign
keys: every history row references an existing task and an existing user. -/
def historyWf (db : DB) : Prop :=
  ∀ h ∈ db.history, (∃ t ∈ db.tasks, t.id = h.task_id) ∧ (∃ u ∈ db.users, u.id = h.user_id)

/-- Projection of a history row to its observable content (without the
store-generated primary key and timestamp). -/
def histKey (h : TaskHistory) : Nat × String × String × String :=
  (h.task_id, h.field_changed, h.old_value, h.new_value)

/-- Specification-side (Prop-level) reading of one column criterion, written
from the claim: membership for the in-set criteria, an existing due date in
range for the range criteria, threshold for created-after. -/
def critTrue : FilterCrit → Task → Prop
  | .statusIn l, t => t.status ∈ l
  | .priorityIn l, t => t.priority ∈ l
  | .dueFrom d, t => ∃ x, t.due_date = some x ∧ d ≤ x
  | .dueTo d, t => ∃ x, t.due_date = some x ∧ x ≤ d
  | .createdAfter d, t => d ≤ t.created_at

/-- Specification-side reading of the assignee join criterion: whenever a
non-empty assignee-id set is supplied, the task must have an assignment row
whose user is in the set — required regardless of the AND/OR mode. -/
def specAssignee (db : DB) (fr : TaskFilterRequest) (t : Task) : Prop :=
  ∀ l, fr.assignee_ids = some l → l ≠ [] →
    ∃ a ∈ db.assignments, a.task_id = t.id ∧ a.user_id ∈ l

/-- Specification-side reading of the tag join criterion: whenever a
non-empty tag-name set is supplied, the task must carry a tag whose name is
in the set — required regardless of the AND/OR mode. -/
def specTag (db : DB) (fr : TaskFilterRequest) (t : Task) : Prop :=
  ∀ l, fr.tags = some l → l ≠ [] →
    ∃ p ∈ db.task_tags, p.1 = t.id ∧ ∃ g ∈ db.tags, g.id = p.2 ∧ g.name ∈ l

/-- Specification-side combination of the column-level criteria under the
caller-chosen boolean mode: with no criterion present no column constraint
applies; in AND mode all present criteria must hold; otherwise some present
criterion must hold. -/
def specColumns (fr : TaskFilterRequest) (t : Task) : Prop :=
  conditions fr = [] ∨
  (fr.logic = "AND" ∧ ∀ c ∈ conditions fr, critTrue c t) ∨
  (fr.logic ≠ "AND" ∧ ∃ c ∈ conditions fr, critTrue c t)

/-- Specification-side filter predicate assembled from the claim's words. -/
def specMatches (db : DB) (fr : TaskFilterRequest) (t : Task) : Prop :=
  specAssignee db fr t ∧ specTag db fr t ∧ specColumns fr t

/-- History fixtures for the timeline witness: two changes on task 1. -/
def exHist1 : TaskHistory :=
  { id := 10, task_id := 1, user_id := 5, field_changed := "status",
    old_value := "o", new_value := "n", changed_at := 100 }

/-- Second history fixture, more recent than `exHist1`. -/
def exHist2 : TaskHistory :=
  { id := 11, task_id := 1, user_id := 5, field_changed := "priority",
    old_value := "o", new_value := "n", changed_at := 200 }

/-- The witness store extended with the two history fixtures. -/
def exDB2 : DB := { exDB with history := [exHist1, exHist2] }

section Lemmas

/-- A successful `find?` on the task table returns a member with the looked-up id. -/
theorem find?_task_mem {db : DB} {tid : Nat} {t : Task}
    (h : db.tasks.find? (fun x => x.id = tid) = some t) : t ∈ db.tasks ∧ t.id = tid := by
  refine ⟨List.mem_of_find?_eq_some h, ?_⟩
  simpa using List.find?_some h

/-- Every assignment row inserted by `insertAssignments` carries the task id. -/
theorem insertAssignments_task_id (now : Int) :
    ∀ (ids : List Nat) (nid tid : Nat), ∀ a ∈ (insertAssignments nid tid now ids).1,
      a.task_id = tid := by
  intro ids
  induction ids with
  | nil => intro nid tid a ha; simp [insertAssignments] at ha
  | cons u us ih =>
    intro nid tid a ha
    simp only [insertAssignments, List.mem_cons] at ha
    rcases ha with rfl | ha
    · rfl
    · exact ih (nid + 1) tid a ha

/-- The user ids of the rows inserted by `insertAssignments` are the input list. -/
theorem insertAssignments_users (now : Int) :
    ∀ (ids : List Nat) (nid tid : Nat),
      ((insertAssignments nid tid now ids).1).map (fun a => a.user_id) = ids := by
  intro ids
  induction ids with
  | nil => intro nid tid; simp [insertAssignments]
  | cons u us ih => intro nid tid; simp [insertAssignments, ih (nid + 1) tid]

/-- Every history row inserted by `insertHistory` comes from one change record. -/
theorem insertHistory_mem (uid : Nat) (now : Int) :
    ∀ (cs : List Change) (nid tid : Nat), ∀ h ∈ (insertHistory nid tid uid now cs).1,
      ∃ c ∈ cs, h.task_id = tid ∧ h.field_changed = c.1 ∧ h.old_value = c.2.1 ∧
        h.new_value = c.2.2 := by
  intro cs
  induction cs with
  | nil => intro nid tid h hh; simp [insertHistory] at hh
  | cons c cs ih =>
    intro nid tid h hh
    simp only [insertHistory, List.mem_cons] at hh
    rcases hh with rfl | hh
    · exact ⟨c, List.mem_cons_self .., rfl, rfl, rfl, rfl⟩
    · obtain ⟨c', hc', hprops⟩ := ih (nid + 1) tid h hh
      exact ⟨c', List.mem_cons_of_mem _ hc', hprops⟩

/-- Projection of the rows inserted by `insertHistory` back to the changes. -/
theorem insertHistory_map (uid : Nat) (now : Int) :
    ∀ (cs : List Change) (nid tid : Nat),
      ((insertHistory nid tid uid now cs).1).map histKey
        = cs.map (fun c => (tid, c.1, c.2.1, c.2.2)) := by
  intro cs
  induction cs with
  | nil => intro nid tid; simp [insertHistory]
  | cons c cs ih => intro nid tid; simp [insertHistory, ih (nid + 1) tid, histKey]

/-- Filtering for a task id after filtering it away yields nothing. -/
theorem filter_assignments_ne_eq (l : List TaskAssignment) (tid : Nat) :
    ((l.filter (fun a => a.task_id ≠ tid)).filter (fun a => a.task_id = tid)) = [] := by
  rw [List.filter_eq_nil_iff]
  intro a ha
  have h2 := (List.mem_filter.mp ha).2
  simp only [decide_not] at h2 ⊢
  simpa using h2

/-- The `title` step only appends records labelled with a scalar name. -/
theorem updTitle_fields (upd : TaskUpdate) (s : Task × List Change)
    (h : ∀ c ∈ s.2, scalarName c.1) : ∀ c ∈ (updTitle upd s).2, scalarName c.1 := by
  unfold updTitle
  rcases upd.title with _ | v
  · exact h
  · by_cases hv : s.1.title = v
    · simpa [hv] using h
    · intro c hc
      simp only [if_pos, hv, ne_eq, not_false_eq_true, if_true, List.mem_append,
        List.mem_singleton] at hc
      rcases hc with hc | rfl
      · exact h c hc
      · exact Or.inl rfl

/-- The `description` step only appends records labelled with a scalar name. -/
theorem updDescription_fields (upd : TaskUpdate) (s : Task × List Change)
    (h : ∀ c ∈ s.2, scalarName c.1) : ∀ c ∈ (updDescription upd s).2, scalarName c.1 := by
  unfold updDescription
  rcases upd.description with _ | v
  · exact h
  · by_cases hv : s.1.description = v
    · simpa [hv] using h
    · intro c hc
      simp only [if_pos, hv, ne_eq, not_false_eq_true, if_true, List.mem_append,
        List.mem_singleton] at hc
      rcases hc with hc | rfl
      · exact h c hc
      · exact Or.inr (Or.inl rfl)

/-- The `status` step only appends records labelled with a scalar name. -/
theorem updStatus_fields (upd : TaskUpdate) (s : Task × List Change)
    (h : ∀ c ∈ s.2, scalarName c.1) : ∀ c ∈ (updStatus upd s).2, scalarName c.1 := by
  unfold updStatus
  rcases upd.status with _ | v
  · exact h
  · by_cases hv : s.1.status = v
    · simpa [hv] using h
    · intro c hc
      simp only [if_pos, hv, ne_eq, not_false_eq_true, if_true, List.mem_append,
        List.mem_singleton] at hc
      rcases hc with hc | rfl
      · exact h c hc
      · exact Or.inr (Or.inr (Or.inl rfl))

/-- The `priority` step only appends records labelled with a scalar name. -/
theorem updPriority_fields (upd : TaskUpdate) (s : Task × List Change)
    (h : ∀ c ∈ s.2, scalarName c.1) : ∀ c ∈ (updPriority upd s).2, scalarName c.1 := by
  unfold updPriority
  rcases upd.priority with _ | v
  · exact h
  · by_cases hv : s.1.priority = v
    · simpa [hv] using h
    · intro c hc
      simp only [if_pos, hv, ne_eq, not_false_eq_true, if_true, List.mem_append,
        List.mem_singleton] at hc
      rcases hc with hc | rfl
      · exact h c hc
      · exact Or.inr (Or.inr (Or.inr (Or.inl rfl)))

/-- The `due_date` step only appends records labelled with a scalar name. -/
theorem updDueDate_fields (upd : TaskUpdate) (s : Task × List Change)
    (h : ∀ c ∈ s.2, scalarName c.1) : ∀ c ∈ (updDueDate upd s).2, scalarName c.1 := by
  unfold updDueDate
  rcases upd.due_date with _ | v
  · exact h
  · by_cases hv : s.1.due_date = v
    · simpa [hv] using h
    · intro c hc
      simp only [if_pos, hv, ne_eq, not_false_eq_true, if_true, List.mem_append,
        List.mem_singleton] at hc
      rcases hc with hc | rfl
      · exact h c hc
      · exact Or.inr (Or.inr (Or.inr (Or.inr rfl)))

/-- Every change record produced by the scalar pass is labelled with one of
the five scalar attribute names. -/
theorem applyScalars_fields (t : Task) (upd : TaskUpdate) :
    ∀ c ∈ (applyScalars t upd).2, scalarName c.1 := by
  unfold applyScalars
  exact updDueDate_fields upd _ (updPriority_fields upd _ (updStatus_fields upd _
    (updDescription_fields upd _ (updTitle_fields upd _ (by simp)))))

/-- The `title` step is the identity when the field is absent or its
explicitly present value equals the current one. -/
theorem updTitle_noop (upd : TaskUpdate) (s : Task × List Change)
    (h : upd.title = none ∨ upd.title = some s.1.title) : updTitle upd s = s := by
  unfold updTitle
  rcases h with h | h <;> simp [h]

/-- Identity case of the `description` step. -/
theorem updDescription_noop (upd : TaskUpdate) (s : Task × List Change)
    (h : upd.description = none ∨ upd.description = some s.1.description) :
    updDescription upd s = s := by
  unfold updDescription
  rcases h with h | h <;> simp [h]

/-- Identity case of the `status` step. -/
theorem updStatus_noop (upd : TaskUpdate) (s : Task × List Change)
    (h : upd.status = none ∨ upd.status = some s.1.status) : updStatus upd s = s := by
  unfold updStatus
  rcases h with h | h <;> simp [h]

/-- Identity case of the `priority` step. -/
theorem updPriority_noop (upd : TaskUpdate) (s : Task × List Change)
    (h : upd.priority = none ∨ upd.priority = some s.1.priority) : updPriority upd s = s := by
  unfold updPriority
  rcases h with h | h <;> simp [h]

/-- Identity case of the `due_date` step. -/
theorem updDueDate_noop (upd : TaskUpdate) (s : Task × List Change)
    (h : upd.due_date = none ∨ upd.due_date = some s.1.due_date) : updDueDate upd s = s := by
  unfold updDueDate
  rcases h with h | h <;> simp [h]

/-- The scalar pass is the identity (and records no changes) when every
explicitly present scalar field equals the task's current value. -/
theorem applyScalars_noop (t : Task) (upd : TaskUpdate)
    (h1 : upd.title = none ∨ upd.title = some t.title)
    (h2 : upd.description = none ∨ upd.description = some t.description)
    (h3 : upd.status = none ∨ upd.status = some t.status)
    (h4 : upd.priority = none ∨ upd.priority = some t.priority)
    (h5 : upd.due_date = none ∨ upd.due_date = some t.due_date) :
    applyScalars t upd = (t, []) := by
  unfold applyScalars
  rw [updTitle_noop upd _ h1, updDescription_noop upd _ h2, updStatus_noop upd _ h3,
    updPriority_noop upd _ h4, updDueDate_noop upd _ h5]

end Lemmas

/-- C10: for every existing task, an update whose input explicitly sets
`assignee_ids` or `tag_names` to null is not treated as clearing the
collection: the non-null guard sends the null to the generic scalar branch,
whose `getattr` on the missing `Task` attribute fails, and the operation
aborts with the store unchanged — assignments and tags are neither replaced
nor cleared. -/
theorem update_explicit_null_fails (db : DB) (tid uid : Nat) (upd : TaskUpdate) (now : Int)
    (hex : (db.tasks.find? (fun t => t.id = tid)).isSome = true)
    (hnull : upd.assignee_ids = some none ∨ upd.tag_names = some none) :
    update_task db tid upd uid now = (.attrError, db) := by
  obtain ⟨t, ht⟩ := Option.isSome_iff_exists.mp hex
  unfold update_task
  rw [ht]
  rcases hnull with h | h
  · simp [h]
  · by_cases ha : upd.assignee_ids = some none
    · simp [ha]
    · simp [ha, h]

/-- Witness for `update_explicit_null_fails` at a concrete store and input. -/
theorem update_explicit_null_fails_witness :
    update_task exDB 1 ⟨some "b", none, none, none, none, some none, none⟩ 9 99
      = (.attrError, exDB) :=
  update_explicit_null_fails exDB 1 9 ⟨some "b", none, none, none, none, some none, none⟩ 99
    (by decide) (Or.inl rfl)

/-- C5, counterexample: an update carrying a non-null assignee-id list
together with an explicitly-null `tag_names` does NOT replace the
assignments: the null tag list reaches the scalar branch, `getattr` fails,
the transaction rolls back, and task 1's assignment set stays `[5]` instead
of becoming the supplied `[8, 9]`. -/
theorem update_assignees_null_tags_cex :
    (update_task exDB 1 ⟨none, none, none, none, none, some (some [8, 9]), some none⟩ 4 99).1
      = .attrError ∧
    ((update_task exDB 1 ⟨none, none, none, none, none, some (some [8, 9]), some none⟩ 4
        99).2.assignments.filter (fun a => a.task_id = 1)).map (fun a => a.user_id) = [5] ∧
    ([5] : List Nat) ≠ [8, 9] := by decide

/-- C5, amended: for every existing task, an update whose input contains a
non-null assignee-id list — and does not also explicitly set `tag_names` to
null, which aborts the whole call with `AttributeError` before commit —
fully replaces the task's assignments: afterwards the assignment rows for
that task are exactly the new list, never a union with the old, and none of
the history records the call appends is an assignee entry (they are all
per-scalar-field records). -/
theorem update_assignees_replace (db : DB) (tid uid : Nat) (upd : TaskUpdate)
    (ids : List Nat) (now : Int)
    (hex : (db.tasks.find? (fun t => t.id = tid)).isSome = true)
    (ha : upd.assignee_ids = some (some ids))
    (htg : upd.tag_names ≠ some none) :
    (update_task db tid upd uid now).1 = .ok ∧
    ((update_task db tid upd uid now).2.assignments.filter (fun a => a.task_id = tid)).map
      (fun a => a.user_id) = ids ∧
    ∃ added, (update_task db tid upd uid now).2.history = db.history ++ added ∧
      ∀ h ∈ added, h.field_changed ≠ "assignees" ∧ h.field_changed ≠ "assignee_ids" := by
  obtain ⟨t, ht⟩ := Option.isSome_iff_exists.mp hex
  have hne : upd.assignee_ids ≠ some none := by rw [ha]; simp
  unfold update_task
  rw [ht]
  dsimp only
  rw [if_neg hne, if_neg htg, ha]
  refine ⟨rfl, ?_, ?_⟩
  · dsimp only
    rw [List.filter_append, filter_assignments_ne_eq, List.nil_append,
      List.filter_eq_self.mpr, insertAssignments_users]
    intro a hmem
    simpa using insertAssignments_task_id now ids db.nextId tid a hmem
  · refine ⟨_, rfl, ?_⟩
    intro h hmem
    obtain ⟨c, hc, _, hfield, _⟩ :=
      insertHistory_mem uid now _ _ tid h hmem
    have hn := applyScalars_fields t upd c hc
    rcases hn with h5 | h5 | h5 | h5 | h5 <;> rw [hfield, h5] <;> exact ⟨by decide, by decide⟩

/-- Witness for `update_assignees_replace` at a concrete store and input. -/
theorem update_assignees_replace_witness :
    (update_task exDB 1 ⟨none, none, none, none, none, some (some [8, 9]), none⟩ 4 99).1 = .ok ∧
    ((update_task exDB 1 ⟨none, none, none, none, none, some (some [8, 9]), none⟩ 4
        99).2.assignments.filter (fun a => a.task_id = 1)).map (fun a => a.user_id) = [8, 9] ∧
    ∃ added,
      (update_task exDB 1 ⟨none, none, none, none, none, some (some [8, 9]), none⟩ 4
          99).2.history = exDB.history ++ added ∧
      ∀ h ∈ added, h.field_changed ≠ "assignees" ∧ h.field_changed ≠ "assignee_ids" :=
  update_assignees_replace exDB 1 4 ⟨none, none, none, none, none, some (some [8, 9]), none⟩
    [8, 9] 99 (by decide) rfl (by decide)

/-- C6: for every ordered pair of existing tasks with no edge between them,
the first `addDependency` call succeeds and inserts the edge, the second call
with the same ordered pair reports a conflict without writing anything, and
exactly one such edge remains; and whenever either endpoint does not exist
the call reports not-found and inserts nothing. -/
theorem add_dependency_twice (db : DB) (tid did : Nat) (n1 n2 : Int)
    (h1 : db.tasks.any (fun t => t.id = tid) = true)
    (h2 : db.tasks.any (fun t => t.id = did) = true)
    (h0 : edgeCount db tid did = 0) :
    (add_task_dependency db tid did n1).1 = .created ∧
    edgeCount (add_task_dependency db tid did n1).2 tid did = 1 ∧
    add_task_dependency (add_task_dependency db tid did n1).2 tid did n2
      = (.conflict, (add_task_dependency db tid did n1).2) ∧
    ∀ (db' : DB) (a b : Nat) (n : Int),
      ¬ (db'.tasks.any (fun t => t.id = a) = true ∧ db'.tasks.any (fun t => t.id = b) = true) →
      add_task_dependency db' a b n = (.notFound, db') := by
  have hnone : db.dependencies.any
      (fun d => d.task_id = tid && d.depends_on_task_id = did) = false := by
    rw [Bool.eq_false_iff]
    intro hany
    obtain ⟨d, hd, hp⟩ := List.any_eq_true.mp hany
    have : d ∈ db.dependencies.filter (fun d => d.task_id = tid && d.depends_on_task_id = did) :=
      List.mem_filter.mpr ⟨hd, hp⟩
    rw [edgeCount, List.length_eq_zero] at h0
    rw [h0] at this
    exact absurd this (List.not_mem_nil d)
  have hcond : ¬ (¬ (db.tasks.any (fun t => t.id = tid) = true) ∨
      ¬ (db.tasks.any (fun t => t.id = did) = true)) := by
    push_neg
    exact ⟨h1, h2⟩
  have hfirst : add_task_dependency db tid did n1
      = (.created, { db with
          dependencies := db.dependencies ++ [⟨db.nextId, tid, did, n1⟩],
          nextId := db.nextId + 1 }) := by
    unfold add_task_dependency
    rw [if_neg hcond, if_neg (by rw [hnone]; simp)]
  have hcount : edgeCount (add_task_dependency db tid did n1).2 tid did = 1 := by
    rw [hfirst]
    unfold edgeCount at h0 ⊢
    dsimp only
    rw [List.filter_append, List.length_append, h0]
    simp
  refine ⟨by rw [hfirst], hcount, ?_, ?_⟩
  · rw [hfirst]
    unfold add_task_dependency
    dsimp only
    have hany2 : ((db.dependencies ++
        [TaskDependency.mk db.nextId tid did n1]).any
          (fun d => d.task_id = tid && d.depends_on_task_id = did)) = true := by
      rw [List.any_append]
      simp
    rw [if_neg hcond, if_pos hany2]
  · intro db' a b n hne
    unfold add_task_dependency
    rw [if_pos]
    rcases not_and_or.mp hne with h | h
    · exact Or.inl h
    · exact Or.inr h

/-- Witness for `add_dependency_twice` at a concrete store. -/
theorem add_dependency_twice_witness :
    (add_task_dependency exDB 1 1 5).1 = .created ∧
    edgeCount (add_task_dependency exDB 1 1 5).2 1 1 = 1 ∧
    add_task_dependency (add_task_dependency exDB 1 1 5).2 1 1 6
      = (.conflict, (add_task_dependency exDB 1 1 5).2) ∧
    ∀ (db' : DB) (a b : Nat) (n : Int),
      ¬ (db'.tasks.any (fun t => t.id = a) = true ∧ db'.tasks.any (fun t => t.id = b) = true) →
      add_task_dependency db' a b n = (.notFound, db') :=
  add_dependency_twice exDB 1 1 5 6 (by decide) (by decide) (by decide)

/-- C2, counterexample: deleting a task does not purge its `task:{id}` cache
entry, so a `get` that follows a delete can hit the stale entry and does NOT
return not-found.  Concretely: `get` task 1 at time 20 (caches it for 300s),
delete task 1, `get` task 1 again at time 25 — the delete succeeds yet the
second `get` returns a task. -/
theorem delete_then_get_cex :
    (delete_task (get_task exDB 1 20).2 1).1 = .deleted ∧
    (get_task (delete_task (get_task exDB 1 20).2 1).2 1 25).1 ≠ none := by decide

/-- The delete route fails with an integrity error — and writes nothing —
whenever the task exists and another task's dependency edge points at it:
the ORM nullify of `depends_on_task_id` violates its NOT NULL constraint. -/
theorem delete_task_incoming_error (db : DB) (tid : Nat)
    (hex : db.tasks.any (fun t => t.id = tid) = true)
    (hinc : db.dependencies.any
      (fun d => d.depends_on_task_id = tid && d.task_id ≠ tid) = true) :
    delete_task db tid = (.integrityError, db) := by
  unfold delete_task
  rw [if_pos hex, if_pos hinc]

/-- C2, amended: the delete of an existing task succeeds exactly when no
OTHER task's dependency edge points at it (otherwise the flush fails with an
integrity error and removes nothing); after a successful delete the task's
history entries, assignment rows and dependency edges in both directions are
removed, every subsequent `get` on that id returns not-found PROVIDED no
unexpired `task:{id}` cache entry survives (the delete route does not purge
that entry, so a `get` cached within the previous 5-minute TTL can still be
served stale), and no filter result contains the task. -/
theorem delete_task_spec (db : DB) (tid : Nat)
    (hex : db.tasks.any (fun t => t.id = tid) = true)
    (hinc : ∀ d ∈ db.dependencies, d.depends_on_task_id = tid → d.task_id = tid) :
    (delete_task db tid).1 = .deleted ∧
    (∀ h ∈ (delete_task db tid).2.history, h.task_id ≠ tid) ∧
    (∀ a ∈ (delete_task db tid).2.assignments, a.task_id ≠ tid) ∧
    (∀ d ∈ (delete_task db tid).2.dependencies,
      d.task_id ≠ tid ∧ d.depends_on_task_id ≠ tid) ∧
    (∀ now : Int, cacheLookup (delete_task db tid).2.taskCache tid now = none →
      (get_task (delete_task db tid).2 tid now).1 = none) ∧
    (∀ fr : TaskFilterRequest, ∀ t ∈ filter_tasks (delete_task db tid).2 fr, t.id ≠ tid) := by
  have hnoinc : ¬ (db.dependencies.any
      (fun d => d.depends_on_task_id = tid && d.task_id ≠ tid) = true) := by
    intro hany
    obtain ⟨d, hd, hp⟩ := List.any_eq_true.mp hany
    simp only [Bool.and_eq_true, decide_eq_true_eq, decide_not, Bool.not_eq_true'] at hp
    have := hinc d hd hp.1
    rw [this] at hp
    simpa using hp.2
  have hd : delete_task db tid
      = (.deleted, { db with
          tasks := db.tasks.filter (fun t => t.id ≠ tid),
          assignments := db.assignments.filter (fun a => a.task_id ≠ tid),
          dependencies := db.dependencies.filter (fun d => d.task_id ≠ tid),
          history := db.history.filter (fun h => h.task_id ≠ tid),
          task_tags := db.task_tags.filter (fun p => p.1 ≠ tid),
          analyticsCache := none }) := by
    unfold delete_task
    rw [if_pos hex, if_neg hnoinc]
  rw [hd]
  dsimp only
  refine ⟨rfl, ?_, ?_, ?_, ?_, ?_⟩
  · intro h hm
    have := (List.mem_filter.mp hm).2
    simpa using this
  · intro a hm
    have := (List.mem_filter.mp hm).2
    simpa using this
  · intro d hm
    have hdm := List.mem_filter.mp hm
    have hne : d.task_id ≠ tid := by simpa using hdm.2
    refine ⟨hne, fun hdep => hne (hinc d hdm.1 hdep)⟩
  · intro now hcl
    unfold get_task
    rw [hcl]
    have hfind : ((db.tasks.filter (fun t => t.id ≠ tid)).find? (fun t => t.id = tid)) = none := by
      rw [List.find?_eq_none]
      intro x hx
      have := (List.mem_filter.mp hx).2
      simpa using this
    rw [hfind]
  · intro fr t hm
    have hmem := (List.mem_filter.mp hm).1
    have := (List.mem_filter.mp hmem).2
    simpa using this

/-- Witness for `delete_task_spec` at a concrete store. -/
theorem delete_task_spec_witness :
    (delete_task exDB 1).1 = .deleted ∧
    ∀ fr : TaskFilterRequest, ∀ t ∈ filter_tasks (delete_task exDB 1).2 fr, t.id ≠ 1 :=
  ⟨(delete_task_spec exDB 1 (by decide) (by decide)).1,
   (delete_task_spec exDB 1 (by decide) (by decide)).2.2.2.2.2⟩

/-- C1, counterexample: on the fixture store, an update whose explicitly
present scalar fields (status, priority, due date) all equal the task's
current values succeeds with zero new history entries — but `updated_at`
stays 10 even though the call happens at time 99: with no field actually
changed no UPDATE is emitted for the row, so the `onupdate` refresh never
fires, contradicting the claim that `updated_at` is still refreshed. -/
theorem update_noop_cex :
    (update_task exDB 1 exNoop 9 99).1 = .ok ∧
    (update_task exDB 1 exNoop 9 99).2.history = [] ∧
    (update_task exDB 1 exNoop 9 99).2.tasks.map (fun t => t.updated_at) = [10] ∧
    (10 : Int) ≠ 99 := by decide

/-- C1, amended: for every existing task, an update in which every explicitly
present scalar field equals the task's current value produces zero new
history entries, and `updated_at` is left UNCHANGED (it is refreshed only
when at least one field actually changes, because a fully no-op update emits
no UPDATE for the task row). -/
theorem update_noop_amended (db : DB) (tid uid : Nat) (t : Task) (upd : TaskUpdate) (now : Int)
    (hids : (db.tasks.map (fun x => x.id)).Nodup)
    (hfind : db.tasks.find? (fun x => x.id = tid) = some t)
    (h1 : upd.title = none ∨ upd.title = some t.title)
    (h2 : upd.description = none ∨ upd.description = some t.description)
    (h3 : upd.status = none ∨ upd.status = some t.status)
    (h4 : upd.priority = none ∨ upd.priority = some t.priority)
    (h5 : upd.due_date = none ∨ upd.due_date = some t.due_date) :
    (update_task db tid upd uid now).2.history = db.history ∧
    ∀ x ∈ (update_task db tid upd uid now).2.tasks, x.id = tid → x.updated_at = t.updated_at := by
  have hsc := applyScalars_noop t upd h1 h2 h3 h4 h5
  have hmem := find?_task_mem hfind
  have hsame : ∀ x ∈ db.tasks, x.id = tid → x.updated_at = t.updated_at := by
    intro x hx hxid
    have hxt : x = t := by
      apply List.inj_on_of_nodup_map hids hx hmem.1
      rw [hxid, hmem.2]
    rw [hxt]
  unfold update_task
  rw [hfind]
  dsimp only
  by_cases hA : upd.assignee_ids = some none
  · rw [if_pos hA]
    exact ⟨rfl, hsame⟩
  · rw [if_neg hA]
    by_cases hT : upd.tag_names = some none
    · rw [if_pos hT]
      exact ⟨rfl, hsame⟩
    · rw [if_neg hT]
      rw [hsc]
      dsimp only
      refine ⟨by simp [insertHistory], ?_⟩
      intro x hx hxid
      obtain ⟨y, hy, rfl⟩ := List.mem_map.mp hx
      by_cases hyid : y.id = tid
      · simp only [hyid, if_true]
      · simp only [hyid, if_false]
        exact hsame y hy (by simpa [hyid] using hxid)

/-- Witness for `update_noop_amended` on the fixture store. -/
theorem update_noop_amended_witness :
    (update_task exDB 1 exNoop 9 99).2.history = exDB.history ∧
    ∀ x ∈ (update_task exDB 1 exNoop 9 99).2.tasks, x.id = 1 →
      x.updated_at = exTask.updated_at :=
  update_noop_amended exDB 1 9 exTask exNoop 99 (by decide) (by decide)
    (Or.inl rfl) (Or.inl rfl) (Or.inr rfl) (Or.inr rfl) (Or.inr rfl)

/-- Get-or-create preserves uniqueness of tag names: a row is only created
after the by-name lookup misses. -/
theorem getOrCreateTags_nodup :
    ∀ (names : List String) (tags : List Tag) (nid : Nat),
      (tags.map (fun g => g.name)).Nodup →
      (((getOrCreateTags tags nid names).1).map (fun g => g.name)).Nodup := by
  intro names
  induction names with
  | nil => intro tags nid h; exact h
  | cons n ns ih =>
    intro tags nid h
    unfold getOrCreateTags getOrCreateTag
    rcases hf : tags.find? (fun tg => tg.name = n) with _ | tg
    · rw [hf]
      dsimp only
      apply ih
      rw [List.map_append]
      rw [List.nodup_append]
      refine ⟨h, List.nodup_singleton _, ?_⟩
      intro a ha hb
      simp only [List.map_cons, List.map_nil, List.mem_singleton] at hb
      obtain ⟨g, hg, hgn⟩ := List.mem_map.mp ha
      have := List.find?_eq_none.mp hf g hg
      rw [hb] at hgn
      exact this (by simpa using hgn)
    · rw [hf]
      dsimp only
      exact ih tags nid h

/-- The tag table after `update_task` either is unchanged or is the result of
a get-or-create pass over the request's tag names. -/
theorem update_task_tags (db : DB) (tid : Nat) (upd : TaskUpdate) (uid : Nat) (now : Int) :
    (update_task db tid upd uid now).2.tags = db.tags ∨
    ∃ nid names, (update_task db tid upd uid now).2.tags = (getOrCreateTags db.tags nid names).1 := by
  unfold update_task
  rcases hf : db.tasks.find? (fun t => t.id = tid) with _ | t
  · rw [hf]
    exact Or.inl rfl
  · rw [hf]
    dsimp only
    by_cases hA : upd.assignee_ids = some none
    · rw [if_pos hA]
      exact Or.inl rfl
    · rw [if_neg hA]
      by_cases hT : upd.tag_names = some none
      · rw [if_pos hT]
        exact Or.inl rfl
      · rw [if_neg hT]
        rcases ht : upd.tag_names with _ | v
        · exact Or.inl rfl
        · rcases v with _ | names
          · exact absurd ht hT
          · exact Or.inr ⟨_, names, rfl⟩

/-- C9: tag resolution is get-or-create by name — in every create and every
tag-list update, each requested name is looked up among existing tags and a
new `Tag` row is created only on a miss — so from a store with unique tag
names, no sequence of create/update operations ever produces two `Tag` rows
sharing a name. -/
theorem tag_names_unique (db : DB) (ops : List TaskOp) (h : tagNamesNodup db) :
    tagNamesNodup (ops.foldl applyOp db) := by
  induction ops generalizing db with
  | nil => exact h
  | cons op ops ih =>
    rw [List.foldl_cons]
    apply ih
    cases op with
    | create tc c now =>
      show ((((create_task db tc c now).1).tags).map (fun g => g.name)).Nodup
      exact getOrCreateTags_nodup tc.tag_names db.tags _ h
    | update tid upd uid now =>
      show ((((update_task db tid upd uid now).2).tags).map (fun g => g.name)).Nodup
      rcases update_task_tags db tid upd uid now with he | ⟨nid, names, he⟩
      · rw [he]
        exact h
      · rw [he]
        exact getOrCreateTags_nodup names db.tags nid h

/-- Witness for `tag_names_unique`: a create that repeats a brand-new tag
name and repeats an existing one still leaves tag names unique. -/
theorem tag_names_unique_witness :
    tagNamesNodup
      ([TaskOp.create
          ⟨"n", none, .todo, .low, none, none, [], ["x", "y", "y"], []⟩ 7 50].foldl
        applyOp exDB) :=
  tag_names_unique exDB
    [TaskOp.create ⟨"n", none, .todo, .low, none, none, [], ["x", "y", "y"], []⟩ 7 50]
    (by show (exDB.tags.map (fun g => g.name)).Nodup; decide)

/-- C8: for every user id and window length `days` in 1–30, the user timeline
is exactly the history entries whose task is currently assigned to that user
and whose `changed_at` lies within the trailing `days`-long window, ordered
by `changed_at` descending (most recent first). -/
theorem user_timeline_spec (db : DB) (uid days : Nat) (now : Int)
    (hwf : historyWf db) (hdays : 1 ≤ days ∧ days ≤ 30) :
    (∀ h, h ∈ get_user_timeline db uid days now ↔
      h ∈ db.history ∧
        (∃ a ∈ db.assignments, a.user_id = uid ∧ a.task_id = h.task_id) ∧
        now - (days : Int) * 86400 ≤ h.changed_at) ∧
    (get_user_timeline db uid days now).Pairwise (fun a b => b.changed_at ≤ a.changed_at) := by
  constructor
  · intro h
    unfold get_user_timeline
    dsimp only
    rw [List.Perm.mem_iff (List.perm_insertionSort hdesc _)]
    rw [List.mem_filter]
    simp only [Bool.and_eq_true, List.any_eq_true, decide_eq_true_eq]
    constructor
    · rintro ⟨hh, ⟨⟨⟨ha, _⟩, _⟩, hdate⟩⟩
      obtain ⟨a, hma, hau, hat⟩ := ha
      exact ⟨hh, ⟨a, hma, hau, hat⟩, hdate⟩
    · rintro ⟨hh, ⟨a, hma, hau, hat⟩, hdate⟩
      obtain ⟨⟨t, hmt, hti⟩, u, hmu, hui⟩ := hwf h hh
      exact ⟨hh, ⟨⟨⟨a, hma, hau, hat⟩, t, hmt, hti⟩, u, hmu, hui⟩, hdate⟩
  · exact List.sorted_insertionSort hdesc _

/-- Witness for `user_timeline_spec` on the history-extended fixture store. -/
theorem user_timeline_spec_witness :
    (∀ h, h ∈ get_user_timeline exDB2 5 7 300 ↔
      h ∈ exDB2.history ∧
        (∃ a ∈ exDB2.assignments, a.user_id = 5 ∧ a.task_id = h.task_id) ∧
        (300 : Int) - (7 : Int) * 86400 ≤ h.changed_at) ∧
    (get_user_timeline exDB2 5 7 300).Pairwise (fun a b => b.changed_at ≤ a.changed_at) :=
  user_timeline_spec exDB2 5 7 300
    (by
      show ∀ h ∈ exDB2.history,
        (∃ t ∈ exDB2.tasks, t.id = h.task_id) ∧ ∃ u ∈ exDB2.users, u.id = h.user_id
      decide)
    ⟨by decide, by decide⟩

/-- Per-task keyed history records of a bulk update, written out field by
field: status and priority records exactly when the new value differs, one
synthetic assignees record exactly when a list is supplied. -/
theorem bulkChanges_keyed (bu : TaskBulkUpdate) (t : Task) :
    (bulkChanges bu t).map (fun c => (t.id, c.1, c.2.1, c.2.2))
      = (match bu.status with
         | some s =>
           if t.status ≠ s then [(t.id, "status", strStatus t.status, strStatus s)] else []
         | none => []) ++
        (match bu.priority with
         | some p =>
           if t.priority ≠ p then [(t.id, "priority", strPriority t.priority, strPriority p)]
           else []
         | none => []) ++
        (match bu.assignee_ids with
         | some ids => [(t.id, "assignees", "", String.intercalate "," (ids.map toString))]
         | none => []) := by
  rcases hs : bu.status with _ | s <;> rcases hp : bu.priority with _ | p <;>
    rcases ha : bu.assignee_ids with _ | ids <;>
      simp only [bulkChanges, hs, hp, ha] <;> (try split) <;> (try split) <;> simp

/-- A bulk update records at least one change for a task exactly when the
requested status differs, the requested priority differs, or an assignee list
is supplied. -/
theorem bulkChanges_isEmpty_eq (bu : TaskBulkUpdate) (t : Task) :
    (!(bulkChanges bu t).isEmpty)
      = ((match bu.status with | some s => decide (t.status ≠ s) | none => false) ||
         (match bu.priority with | some p => decide (t.priority ≠ p) | none => false) ||
         bu.assignee_ids.isSome) := by
  rcases hs : bu.status with _ | s <;> rcases hp : bu.priority with _ | p <;>
    rcases ha : bu.assignee_ids with _ | ids <;>
      simp only [bulkChanges, hs, hp, ha] <;> (try split) <;> (try split) <;> simp_all

/-- The history accumulated by the bulk-update loop is the concatenation of
the per-task keyed records, in task order. -/
theorem bulk_foldl_hist (bu : TaskBulkUpdate) (uid : Nat) (now : Int) :
    ∀ (l : List Task) (acc : BulkAcc),
      ((l.foldl (bulkStep bu uid now) acc).history).map histKey
        = acc.history.map histKey
          ++ l.flatMap (fun t => (bulkChanges bu t).map (fun c => (t.id, c.1, c.2.1, c.2.2))) := by
  intro l
  induction l with
  | nil => intro acc; simp
  | cons t ts ih =>
    intro acc
    rw [List.foldl_cons, ih]
    unfold bulkStep
    dsimp only
    rw [List.map_append, insertHistory_map]
    simp

/-- The counter accumulated by the bulk-update loop counts the tasks that
received at least one change record. -/
theorem bulk_foldl_count (bu : TaskBulkUpdate) (uid : Nat) (now : Int) :
    ∀ (l : List Task) (acc : BulkAcc),
      (l.foldl (bulkStep bu uid now) acc).count
        = acc.count + l.countP (fun t => !(bulkChanges bu t).isEmpty) := by
  intro l
  induction l with
  | nil => intro acc; simp
  | cons t ts ih =>
    intro acc
    rw [List.foldl_cons, ih]
    unfold bulkStep
    dsimp only
    rw [List.countP_cons]
    by_cases hc : bulkChanges bu t = []
    · simp [hc]
    · simp [hc, List.isEmpty_iff]
      omega

/-- Filtering for one task id commutes past filtering a different id away. -/
theorem filter_assignments_eq_of_ne (l : List TaskAssignment) (tid k : Nat) (hk : k ≠ tid) :
    ((l.filter (fun a => a.task_id ≠ tid)).filter (fun a => a.task_id = k))
      = l.filter (fun a => a.task_id = k) := by
  rw [List.filter_filter]
  apply List.filter_congr
  intro a _
  by_cases h2 : a.task_id = k
  · have h1 : ¬ (a.task_id = tid) := by rw [h2]; exact hk
    simp [h2, h1]
    exact hk
  · simp [h2]

/-- Rows inserted for one task are invisible to a filter on a different id. -/
theorem insertAssignments_filter_ne (now : Int) (ids : List Nat) (nid tid k : Nat)
    (hk : k ≠ tid) :
    ((insertAssignments nid tid now ids).1.filter (fun a => a.task_id = k)) = [] := by
  rw [List.filter_eq_nil_iff]
  intro a ha
  have h3 := insertAssignments_task_id now ids nid tid a ha
  simp [h3]
  omega

/-- Invariant of the bulk-update loop when an assignee list is supplied: once
some processed task carries id `k`, the assignment rows for `k` are exactly
the supplied list; before that they are the accumulator's rows. -/
theorem bulk_foldl_assign (bu : TaskBulkUpdate) (uid : Nat) (now : Int) (ids : List Nat)
    (hbu : bu.assignee_ids = some ids) :
    ∀ (l : List Task) (acc : BulkAcc) (k : Nat),
      (((l.foldl (bulkStep bu uid now) acc).assignments.filter
          (fun a => a.task_id = k)).map (fun a => a.user_id))
        = if (l.any (fun t => t.id = k)) = true then ids
          else ((acc.assignments.filter (fun a => a.task_id = k)).map (fun a => a.user_id)) := by
  intro l
  induction l with
  | nil => intro acc k; simp
  | cons t ts ih =>
    intro acc k
    rw [List.foldl_cons, ih]
    by_cases htk : t.id = k
    · have hany : ((t :: ts).any (fun x => x.id = k)) = true := by simp [htk]
      rw [if_pos hany]
      by_cases hts : (ts.any (fun x => x.id = k)) = true
      · rw [if_pos hts]
      · rw [if_neg hts]
        subst htk
        unfold bulkStep
        dsimp only
        rw [hbu]
        dsimp only
        rw [List.filter_append, filter_assignments_ne_eq, List.nil_append,
          List.filter_eq_self.mpr, insertAssignments_users]
        intro a ha
        simpa using insertAssignments_task_id now ids acc.nid t.id a ha
    · have hanyc : ((t :: ts).any (fun x => x.id = k)) = (ts.any (fun x => x.id = k)) := by
        simp [List.any_cons, htk]
      by_cases hts : (ts.any (fun x => x.id = k)) = true
      · rw [if_pos hts, if_pos (by rw [hanyc]; exact hts)]
      · rw [if_neg hts, if_neg (by rw [hanyc]; exact hts)]
        unfold bulkStep
        dsimp only
        rw [hbu]
        dsimp only
        rw [List.filter_append,
          filter_assignments_eq_of_ne acc.assignments t.id k (fun h => htk h.symm),
          insertAssignments_filter_ne now ids acc.nid t.id k (fun h => htk h.symm),
          List.append_nil]

/-- C4: in every bulk update, nonexistent ids are silently ignored (only task
rows present in the store are processed); for each matched task a history
record is produced for status and for priority exactly when the new value
differs from the current one, while a supplied assignee-id list always yields
exactly one synthetic `assignees` record for that task even when the list is
unchanged; the returned count equals the number of matched tasks that
received at least one change record; and a supplied assignee-id list fully
replaces each matched task's assignment rows with exactly that list. -/
theorem bulk_update_spec (db : DB) (bu : TaskBulkUpdate) (uid : Nat) (now : Int) :
    (bulk_update_tasks db bu uid now).2
      = ((db.tasks.filter (fun t => t.id ∈ bu.task_ids)).filter
          (fun t =>
            (match bu.status with | some s => decide (t.status ≠ s) | none => false) ||
            (match bu.priority with | some p => decide (t.priority ≠ p) | none => false) ||
            bu.assignee_ids.isSome)).length ∧
    ((bulk_update_tasks db bu uid now).1.history).map histKey
      = db.history.map histKey
        ++ (db.tasks.filter (fun t => t.id ∈ bu.task_ids)).flatMap
            (fun t =>
              (match bu.status with
               | some s =>
                 if t.status ≠ s then [(t.id, "status", strStatus t.status, strStatus s)]
                 else []
               | none => []) ++
              (match bu.priority with
               | some p =>
                 if t.priority ≠ p then
                   [(t.id, "priority", strPriority t.priority, strPriority p)]
                 else []
               | none => []) ++
              (match bu.assignee_ids with
               | some ids =>
                 [(t.id, "assignees", "", String.intercalate "," (ids.map toString))]
               | none => [])) ∧
    (∀ ids, bu.assignee_ids = some ids →
      ∀ t ∈ db.tasks.filter (fun x => x.id ∈ bu.task_ids),
        (((bulk_update_tasks db bu uid now).1.assignments.filter
            (fun a => a.task_id = t.id)).map (fun a => a.user_id)) = ids) := by
  refine ⟨?_, ?_, ?_⟩
  · unfold bulk_update_tasks
    dsimp only
    rw [bulk_foldl_count]
    dsimp only
    rw [Nat.zero_add, List.countP_eq_length_filter]
    congr 1
    apply List.filter_congr
    intro t _
    exact bulkChanges_isEmpty_eq bu t
  · unfold bulk_update_tasks
    dsimp only
    rw [List.map_append, bulk_foldl_hist]
    dsimp only
    rw [List.map_nil, List.nil_append]
    congr 1
    simp only [bulkChanges_keyed]
  · intro ids hbu t ht
    unfold bulk_update_tasks
    dsimp only
    rw [bulk_foldl_assign bu uid now ids hbu]
    rw [if_pos (List.any_eq_true.mpr ⟨t, ht, by simp⟩)]

/-- Witness for the replacement conjunct of `bulk_update_spec`: the fixture
task's assignment set `[5]` becomes exactly the supplied `[4, 5]`. -/
theorem bulk_update_spec_witness :
    (((bulk_update_tasks exDB
        ⟨[1, 99], some TaskStatus.todo, some TaskPriority.high, some [4, 5]⟩ 9
        99).1.assignments.filter (fun a => a.task_id = exTask.id)).map (fun a => a.user_id))
      = [4, 5] :=
  (bulk_update_spec exDB ⟨[1, 99], some TaskStatus.todo, some TaskPriority.high, some [4, 5]⟩
      9 99).2.2 [4, 5] rfl exTask (by decide)

/-- SQL evaluation of a column criterion agrees with its spec-side reading. -/
theorem critTrue_iff (c : FilterCrit) (t : Task) : critTrue c t ↔ critHolds c t = true := by
  cases c with
  | statusIn l => simp [critTrue, critHolds]
  | priorityIn l => simp [critTrue, critHolds]
  | dueFrom d => rcases hdd : t.due_date with _ | x <;> simp [critTrue, critHolds, hdd]
  | dueTo d => rcases hdd : t.due_date with _ | x <;> simp [critTrue, critHolds, hdd]
  | createdAfter d => simp [critTrue, critHolds]

/-- The assignee inner join agrees with its spec-side reading. -/
theorem assigneeJoinOk_iff (db : DB) (fr : TaskFilterRequest) (t : Task) :
    assigneeJoinOk db fr t = true ↔ specAssignee db fr t := by
  unfold assigneeJoinOk specAssignee
  rcases ha : fr.assignee_ids with _ | l
  · simp
  · cases l with
    | nil => simp
    | cons i is =>
      simp only [List.any_eq_true, Bool.and_eq_true, decide_eq_true_eq]
      constructor
      · rintro ⟨a, hma, hat, hau⟩ l' hl' _
        obtain rfl : i :: is = l' := by injection hl'
        exact ⟨a, hma, hat, hau⟩
      · intro hall
        obtain ⟨a, hma, hat, hau⟩ := hall (i :: is) rfl (by simp)
        exact ⟨a, hma, hat, hau⟩

/-- The tag inner join agrees with its spec-side reading. -/
theorem tagJoinOk_iff (db : DB) (fr : TaskFilterRequest) (t : Task) :
    tagJoinOk db fr t = true ↔ specTag db fr t := by
  unfold tagJoinOk specTag
  rcases ha : fr.tags with _ | l
  · simp
  · cases l with
    | nil => simp
    | cons n ns =>
      simp only [List.any_eq_true, Bool.and_eq_true, decide_eq_true_eq]
      constructor
      · rintro ⟨p, hmp, hpt, hg⟩ l' hl' _
        obtain rfl : n :: ns = l' := by injection hl'
        obtain ⟨g, hmg, hgi, hgn⟩ := hg
        exact ⟨p, hmp, hpt, g, hmg, hgi, hgn⟩
      · intro hall
        obtain ⟨p, hmp, hpt, g, hmg, hgi, hgn⟩ := hall (n :: ns) rfl (by simp)
        exact ⟨p, hmp, hpt, g, hmg, hgi, hgn⟩

/-- The AND/OR combination of the assembled column conditions agrees with its
spec-side reading. -/
theorem columns_iff (fr : TaskFilterRequest) (t : Task) :
    (match conditions fr with
     | [] => true
     | cs =>
       if fr.logic = "AND" then cs.all (fun c => critHolds c t)
       else cs.any (fun c => critHolds c t)) = true
    ↔ specColumns fr t := by
  unfold specColumns
  rcases hc : conditions fr with _ | ⟨c, cs⟩
  · simp
  · dsimp only
    by_cases hl : fr.logic = "AND"
    · rw [if_pos hl, List.all_eq_true]
      constructor
      · intro hall
        exact Or.inr (Or.inl ⟨hl, fun c' hc' => (critTrue_iff c' t).mpr (hall c' hc')⟩)
      · rintro (habs | ⟨_, hall⟩ | ⟨hne, _⟩)
        · exact absurd habs (List.cons_ne_nil c cs)
        · exact fun c' hc' => (critTrue_iff c' t).mp (hall c' hc')
        · exact absurd hl hne
    · rw [if_neg hl, List.any_eq_true]
      constructor
      · rintro ⟨c', hc', hh⟩
        exact Or.inr (Or.inr ⟨hl, c', hc', (critTrue_iff c' t).mpr hh⟩)
      · rintro (habs | ⟨hand, _⟩ | ⟨_, c', hc', hh⟩)
        · exact absurd habs (List.cons_ne_nil c cs)
        · exact absurd hand hl
        · exact ⟨c', hc', (critTrue_iff c' t).mp hh⟩

/-- The full WHERE predicate agrees with the spec-side predicate. -/
theorem matchesFilter_iff (db : DB) (fr : TaskFilterRequest) (t : Task) :
    matchesFilter db fr t = true ↔ specMatches db fr t := by
  unfold matchesFilter specMatches
  rw [Bool.and_eq_true, Bool.and_eq_true]
  rw [assigneeJoinOk_iff, tagJoinOk_iff, columns_iff]
  tauto

/-- C3: for every filter request, the present column-level criteria (status,
priority, due-date range, created-after) combine under the caller-chosen
AND/OR mode while the join-based criteria (assignee-id set, tag-name set) are
always applied as mandatory conjunctive filters regardless of that mode; and
the deduplicated result contains each matching task exactly once. -/
theorem filter_tasks_spec (db : DB) (fr : TaskFilterRequest) (t : Task)
    (hids : (db.tasks.map (fun x => x.id)).Nodup) :
    (t ∈ filter_tasks db fr ↔ t ∈ db.tasks ∧ specMatches db fr t) ∧
    (t ∈ db.tasks → specMatches db fr t → (filter_tasks db fr).count t = 1) := by
  constructor
  · unfold filter_tasks
    rw [List.mem_filter, matchesFilter_iff]
  · intro hmem hspec
    unfold filter_tasks
    rw [List.count_filter ((matchesFilter_iff db fr t).mpr hspec)]
    exact List.count_eq_one_of_mem (hids.of_map) hmem

/-- Witness for `filter_tasks_spec` on the fixture store with an OR-mode
request combining status/priority criteria and a tag join. -/
theorem filter_tasks_spec_witness :
    (exTask ∈ filter_tasks exDB
        ⟨some [TaskStatus.done], some [TaskPriority.medium], none, some ["x"], none, none, none,
          "OR"⟩ ↔
      exTask ∈ exDB.tasks ∧
        specMatches exDB
          ⟨some [TaskStatus.done], some [TaskPriority.medium], none, some ["x"], none, none, none,
            "OR"⟩ exTask) ∧
    (exTask ∈ exDB.tasks →
      specMatches exDB
        ⟨some [TaskStatus.done], some [TaskPriority.medium], none, some ["x"], none, none, none,
          "OR"⟩ exTask →
      (filter_tasks exDB
        ⟨some [TaskStatus.done], some [TaskPriority.medium], none, some ["x"], none, none, none,
          "OR"⟩).count exTask = 1) :=
  filter_tasks_spec exDB
    ⟨some [TaskStatus.done], some [TaskPriority.medium], none, some ["x"], none, none, none,
      "OR"⟩ exTask (by decide)

end TaskMgmt
